import Mathlib

/-!
# Verification of the AI Text Humanizer pipeline

Shallow embedding of `app/services/engine.py` (`HumanizerEngine`),
`app/services/humanizer_service.py` (`HumanizerService`) and
`app/api/v1/humanize.py` (the `humanize` and `humanize/batch` endpoints).

Modelling conventions:
* Python's process-wide random source is modelled by an abstract stream
  `g : ℕ → ℚ` of uniform `[0,1)` draws together with an explicit cursor
  `k : ℕ`; every call to `random.random()` reads `g k` and advances the
  cursor.  `random.choice` / `random.randint` consume one draw and map it
  to an index (the claims under verification never depend on the precise
  index distribution, only on which draws are consumed and compared).
* External collaborators (the T5 paraphrase model, the spaCy POS tagger and
  the sentence-embedding model) are bundled in an `Ext` structure of
  oracles.  Cosine similarity of the two embeddings is modelled directly as
  a rational-valued oracle `sim : String → String → ℚ`, since the embedding
  vectors themselves are opaque provider output.
* Fallible Python code is modelled with `Except PyErr`; the only fault the
  embedded code itself can raise is the `IndexError` from
  `words[token.i] = ...` in `_modulate_perplexity`.
-/

namespace Humanizer

/-! ## Python string primitives -/

/-- The whitespace class of Python's `str.split()` / regex `\s`. -/
def pyIsSpace (c : Char) : Bool :=
  c = ' ' || c = '\t' || c = '\n' || c = '\r' || c = '\x0b' || c = '\x0c'

/-- Split a character list at every character satisfying `p`, keeping empty
    pieces (the semantics of Python's `str.split(sep)`).  (Core's
    `String.split` walks byte positions by well-founded recursion, which the
    kernel cannot reduce, hence this structural re-implementation.) -/
def splitOnAux (p : Char → Bool) : List Char → List Char → List (List Char)
  | acc, [] => [acc.reverse]
  | acc, c :: cs =>
    if p c then acc.reverse :: splitOnAux p [] cs
    else splitOnAux p (c :: acc) cs

/-- Split a string at every character satisfying `p`, keeping empty pieces. -/
def splitOn (p : Char → Bool) (s : String) : List String :=
  (splitOnAux p [] s.toList).map String.mk

/-- Python `sentence.split()`: split on whitespace runs, dropping empty pieces. -/
def pySplitWs (s : String) : List String :=
  (splitOn pyIsSpace s).filter (fun w => w ≠ "")

/-- Interleave `" "` between the strings (Python `' '.join(words)`). -/
def joinSpAux : List String → List Char
  | [] => []
  | [w] => w.toList
  | w :: rest => w.toList ++ ' ' :: joinSpAux rest

/-- Python `' '.join(words)`. -/
def joinSp (ws : List String) : String := String.mk (joinSpAux ws)

/-- Python `c in s` for a single character. -/
def containsChar (s : String) (c : Char) : Bool := s.toList.any (fun d => d = c)

/-- Python `str.lower()` (ASCII case folding suffices for the pattern banks). -/
def pyLower (s : String) : String := String.mk (s.toList.map Char.toLower)

/-- Python `str.capitalize()`: first character uppercased, the rest lowercased. -/
def pyCapitalize (s : String) : String :=
  match s.toList with
  | [] => ""
  | c :: cs => String.mk (c.toUpper :: cs.map Char.toLower)

/-- Python `str.strip()`: remove leading and trailing whitespace. -/
def pyStrip (s : String) : String :=
  String.mk (((s.toList.dropWhile pyIsSpace).reverse.dropWhile pyIsSpace).reverse)

/-- Substring test over character lists (`pat` occurs somewhere in `l`). -/
def containsSubAux (pat : List Char) : List Char → Bool
  | [] => pat.isPrefixOf []
  | c :: rest => pat.isPrefixOf (c :: rest) || containsSubAux pat rest

/-- Python `pat in s` (substring containment). -/
def containsSub (s pat : String) : Bool := containsSubAux pat.toList s.toList

/-- Replace the first occurrence of `pat` (assumed non-empty) in `l` by `rep`,
    as Python's `str.replace(pat, rep, 1)`. -/
def replaceFirstAux (pat rep : List Char) : List Char → List Char
  | [] => []
  | c :: rest =>
    if pat.isPrefixOf (c :: rest) then rep ++ (c :: rest).drop pat.length
    else c :: replaceFirstAux pat rep rest

/-- Python `s.replace(pat, rep, 1)`. -/
def replaceFirst (s pat rep : String) : String :=
  String.mk (replaceFirstAux pat.toList rep.toList s.toList)

/-- Replace every (non-overlapping, left-to-right) occurrence of `pat` in the
    list, continuing after each replaced segment, with explicit fuel to keep
    the recursion structural; `fuel = l.length + 1` suffices for non-empty
    `pat` since every step consumes at least one input character. -/
def replaceAllAux (pat rep : List Char) : ℕ → List Char → List Char
  | 0, l => l
  | _, [] => []
  | fuel + 1, c :: rest =>
    if pat.isPrefixOf (c :: rest) then
      rep ++ replaceAllAux pat rep fuel ((c :: rest).drop pat.length)
    else c :: replaceAllAux pat rep fuel rest

/-- Python `s.replace(pat, rep)` (all occurrences; `pat` non-empty). -/
def replaceAll (s pat rep : String) : String :=
  String.mk (replaceAllAux pat.toList rep.toList (s.toList.length + 1) s.toList)

/-! ## Rational literals and products in kernel-computable form

Batteries marks `Rat.mul`, `Rat.add`, `Rat.inv` and `Rat.ofScientific`
`@[irreducible]`, so terms built from `*` and decimal literals do not reduce
under `decide`/`rfl`.  The embedding therefore writes the probability
constants of the source (`0.2`, `0.3`, …) as `q a b = a /. b` and their
intensity scalings as `qmul`, both defined through the reducible
`Rat.divInt`; `qmul_eq` and `q_eq` relate them to ordinary `ℚ`
arithmetic for symbolic reasoning. -/

/-- The rational constant `a / b` in reducible form. -/
def q (a b : ℤ) : ℚ := Rat.divInt a b

/-- Multiplication of rationals in reducible form. -/
def qmul (a b : ℚ) : ℚ := Rat.divInt (a.num * b.num) (a.den * b.den)

/-- `qmul` agrees with ordinary multiplication. -/
theorem qmul_eq (a b : ℚ) : qmul a b = a * b := by
  rw [qmul, ← Rat.divInt_mul_divInt' a.num a.den b.num b.den,
    Rat.num_divInt_den, Rat.num_divInt_den]

/-- `q` agrees with ordinary division of integer casts. -/
theorem q_eq (a b : ℤ) : q a b = (a : ℚ) / b := Rat.divInt_eq_div a b

/-! ## The random source -/

/-- A stream of uniform `[0,1)` draws, one per `random.random()` call. -/
abbrev Draws := ℕ → ℚ

/-- Map a uniform `[0,1)` draw to an index below `n`. -/
def chooseIdx (r : ℚ) (n : ℕ) : ℕ := min (Rat.floor (qmul r (q n 1))).toNat (n - 1)

/-- `random.choice(xs)` driven by one draw (all pattern banks are non-empty). -/
def pyChoice (xs : List String) (r : ℚ) : String := xs.getD (chooseIdx r xs.length) ""

/-- `random.randint(a, b)` (inclusive bounds) driven by one draw. -/
def pyRandint (a b : ℕ) (r : ℚ) : ℕ := a + chooseIdx r (b - a + 1)

/-! ## Pattern banks (`HumanizerEngine._init_pattern_banks`) -/

/-- `self.transitions`. -/
def transitions : List String :=
  ["Actually,", "You know,", "To be honest,", "Interestingly,",
   "Here\x27s the thing:", "The way I see it,", "From my perspective,",
   "Let me explain:", "Basically,", "In other words,", "Simply put,",
   "Well,", "So,", "Now,", "Look,", "See,", "Anyway,", "Besides,"]

/-- `self.fillers`. -/
def fillers : List String :=
  ["kind of", "sort of", "pretty much", "more or less", "essentially",
   "basically", "actually", "really", "quite", "rather", "somewhat",
   "perhaps", "maybe", "probably", "I think", "I believe", "it seems"]

/-- `self.colloquialisms` (declared by the engine; not read by any technique). -/
def colloquialisms : List String :=
  ["a bit", "a lot", "tons of", "bunch of", "loads of",
   "got to", "gotta", "gonna", "want to", "wanna",
   "isn\x27t", "aren\x27t", "won\x27t", "can\x27t", "doesn\x27t"]

/-- `self.personal_touches`. -/
def personalTouches : List String :=
  ["I\x27d say", "I mean", "if you ask me", "in my experience",
   "from what I\x27ve seen", "personally", "honestly"]

/-- `self.imperfections`: (correct, variant, chance). -/
def imperfectionsBank : List (String × String × ℚ) :=
  [("it\x27s", "its", q 2 100), ("their", "there", q 1 100),
   ("effect", "affect", q 1 100), ("who", "that", q 3 100)]

/-- The contraction table of `_add_human_patterns`. -/
def contractionPairs : List (String × String) :=
  [("it is", "it\x27s"), ("is not", "isn\x27t"), ("cannot", "can\x27t"),
   ("will not", "won\x27t"), ("do not", "don\x27t"), ("I am", "I\x27m"),
   ("you are", "you\x27re"), ("they are", "they\x27re")]

/-- The rhetorical-question lead-ins of `_inject_style`. -/
def questionBank : List String :=
  ["You know what?", "But here\x27s the question:",
   "Want to know something interesting?", "Guess what?"]

/-- The stop list for emphasis wrapping in `_inject_style`. -/
def emphStop : List String := ["the", "a", "an", "and", "or", "but"]

/-- The split-point tokens of `_vary_sentence_structure`. -/
def varyConnectors : List String := [",", "and", "but", "or", "while", "although"]

/-- `_get_simple_synonyms`, keyed by the lowercased word. -/
def simpleSynonyms (word : String) : List String :=
  if pyLower word = "good" then ["great", "fine", "nice", "excellent", "solid"]
  else if pyLower word = "bad" then ["poor", "terrible", "awful", "lousy"]
  else if pyLower word = "big" then ["large", "huge", "massive", "enormous"]
  else if pyLower word = "small" then ["little", "tiny", "minor", "slight"]
  else if pyLower word = "fast" then ["quick", "rapid", "speedy", "swift"]
  else if pyLower word = "slow" then ["gradual", "leisurely", "sluggish"]
  else []

/-- Default techniques of `HumanizerEngine.__init__` (used when `techniques`
    is passed as `None`). -/
def defaultTechniques : List String :=
  ["sentence_variation", "perplexity_modulation", "stylistic_injection",
   "semantic_paraphrasing", "human_patterns"]

/-- The fixed application order of the per-sentence technique chain in
    `_full_humanize`. -/
def orderedTechniques : List String :=
  ["semantic_paraphrasing", "sentence_variation", "perplexity_modulation",
   "stylistic_injection", "human_patterns"]

/-! ## Sentence splitting (`HumanizerEngine._split_sentences`)

`re.split(r'(?<=[.!?])\s+', text)` cuts the text at every whitespace run
whose immediately preceding character is `.`, `!` or `?`; the run itself is
discarded.  Since every piece is subsequently `strip`ped and empty pieces
are dropped, leaving the remainder of a whitespace run attached to the front
of the following piece is observationally identical, which is how the
accumulator-based scan below proceeds. -/

/-- Sentence-final punctuation for the split lookbehind. -/
def isSentEnd : Option Char → Bool
  | some c => c = '.' || c = '!' || c = '?'
  | none => false

/-- Scan for split points; `acc` holds the current piece reversed. -/
def splitSentencesAux : List Char → List Char → List (List Char)
  | acc, [] => [acc.reverse]
  | acc, c :: cs =>
    if pyIsSpace c && isSentEnd acc.head? then
      acc.reverse :: splitSentencesAux [] cs
    else
      splitSentencesAux (c :: acc) cs

/-- `_split_sentences`: split, strip each piece, drop empties. -/
def splitSentences (text : String) : List String :=
  ((splitSentencesAux [] text.toList).map (fun l => pyStrip (String.mk l))).filter
    (fun s => s ≠ "")

/-! ## External collaborators -/

/-- A spaCy token as consumed by `_modulate_perplexity`: its text, its
    part-of-speech tag and its token index `token.i`. -/
structure Token where
  text : String
  pos : String
  idx : ℕ
deriving DecidableEq

/-- The external oracles: the T5 paraphrase model (`None` models a raised
    provider exception, recovered by the surrounding `try`), the spaCy
    tagger, and the cosine similarity of the two sentence embeddings
    (`np.dot(e₁, e₂) / (‖e₁‖ * ‖e₂‖)` collapsed into one rational-valued
    oracle, as the vectors are opaque provider output). -/
structure Ext where
  paraphrase : String → ℚ → Option String
  tagger : String → List Token
  sim : String → String → ℚ

/-- The faults the embedded code can raise. -/
inductive PyErr where
  | indexError
deriving DecidableEq

instance {ε α : Type} [DecidableEq ε] [DecidableEq α] : DecidableEq (Except ε α)
  | .error e, .error f =>
    if h : e = f then .isTrue (by rw [h]) else .isFalse (by simp [h])
  | .error _, .ok _ => .isFalse (by simp)
  | .ok _, .error _ => .isFalse (by simp)
  | .ok x, .ok y =>
    if h : x = y then .isTrue (by rw [h]) else .isFalse (by simp [h])

/-! ## Techniques (`HumanizerEngine._paraphrase_sentence` … `_add_human_patterns`) -/

/-- `_paraphrase_sentence`: with probability `intensity` delegate to the T5
    paraphraser at temperature `0.7 + intensity * 0.5`; any provider failure
    falls back to the unmodified sentence. -/
def paraphraseSentence (ext : Ext) (sent : String) (intensity : ℚ) (g : Draws) (k : ℕ) :
    String × ℕ :=
  if g k > intensity then (sent, k + 1)
  else
    match ext.paraphrase sent (q 7 10 + intensity * q 1 2) with
    | some p => (p, k + 1)
    | none => (sent, k + 1)

/-- The split-point search of `_vary_sentence_structure`: the first
    `i ∈ [mid-3, mid+3)` with `words[i]` a connector. -/
def findSplitIdx (words : List String) : Option ℕ :=
  (List.range' (words.length / 2 - 3) 6).find?
    (fun i => i < words.length && words.getD i "" ∈ varyConnectors)

/-- The long-sentence split of `_vary_sentence_structure`. -/
def varyLongSplit (words : List String) (sent : String) : String :=
  match findSplitIdx words with
  | some i => joinSp (words.take i) ++ ". " ++ pyCapitalize (joinSp (words.drop (i + 1)))
  | none => sent

/-- The clause swap of `_vary_sentence_structure` (exactly two comma parts). -/
def varySwap (sent : String) : String :=
  let parts := splitOn (fun c => c = ',') sent
  if parts.length = 2 then
    pyCapitalize (pyStrip (parts.getD 1 "")) ++ ", " ++ pyLower (pyStrip (parts.getD 0 ""))
  else sent

/-- `_vary_sentence_structure`. -/
def varySentenceStructure (sent : String) (intensity : ℚ) (g : Draws) (k : ℕ) :
    String × ℕ :=
  let words := pySplitWs sent
  let step1 : String × ℕ :=
    if 15 < words.length then
      if g k < qmul intensity (q 1 2) then (varyLongSplit words sent, k + 1)
      else (sent, k + 1)
    else (sent, k)
  let s1 := step1.1
  let k1 := step1.2
  if containsChar s1 ',' then
    if g k1 < qmul intensity (q 3 10) then (varySwap s1, k1 + 1) else (s1, k1 + 1)
  else (s1, k1)

/-- The token loop of `_modulate_perplexity`.  Python evaluates
    `random.choice(synonyms)` before the list assignment, so the choice draw
    is consumed even on the failing index; the assignment
    `words[token.i] = …` raises `IndexError` when `token.i` is out of
    range. -/
def perplexityLoop (intensity : ℚ) (g : Draws) :
    List Token → List String → ℕ → Except PyErr (List String × ℕ)
  | [], words, k => .ok (words, k)
  | t :: ts, words, k =>
    if g k < qmul intensity (q 1 10) then
      if t.pos ∈ ["NOUN", "VERB", "ADJ", "ADV"] then
        let syns := simpleSynonyms t.text
        if syns ≠ [] then
          let repl := pyChoice syns (g (k + 1))
          if t.idx < words.length then
            perplexityLoop intensity g ts (words.set t.idx repl) (k + 2)
          else .error .indexError
        else perplexityLoop intensity g ts words (k + 1)
      else perplexityLoop intensity g ts words (k + 1)
    else perplexityLoop intensity g ts words (k + 1)

/-- `_modulate_perplexity`: per-token synonym substitution, then an
    unconditional `' '.join(words)` rebuild. -/
def modulatePerplexity (ext : Ext) (sent : String) (intensity : ℚ) (g : Draws) (k : ℕ) :
    Except PyErr (String × ℕ) :=
  match perplexityLoop intensity g (ext.tagger sent) (pySplitWs sent) k with
  | .error e => .error e
  | .ok (ws, k') => .ok (joinSp ws, k')

/-- `_inject_style`. -/
def injectStyle (sent : String) (intensity : ℚ) (g : Draws) (k : ℕ) : String × ℕ :=
  if g k > intensity then (sent, k + 1)
  else
    let k0 := k + 1
    let step1 : String × ℕ :=
      if g k0 < q 1 10 then (pyChoice questionBank (g (k0 + 1)) ++ " " ++ sent, k0 + 2)
      else (sent, k0 + 1)
    let s1 := step1.1
    let k1 := step1.2
    let words := pySplitWs s1
    if 5 < words.length then
      if g k1 < q 3 20 then
        let i := pyRandint 1 (words.length - 2) (g (k1 + 1))
        let words' :=
          if words.getD i "" ∈ emphStop then words
          else words.set i ("*" ++ words.getD i "" ++ "*")
        (joinSp words', k1 + 2)
      else (joinSp words, k1 + 1)
    else (joinSp words, k1)

/-- The imperfection loop of `_add_human_patterns`: for each pattern, a draw
    is taken only when the `correct` form occurs in the sentence
    (short-circuit `and`), and a hit replaces the first occurrence. -/
def imperfectionLoop : String → List (String × String × ℚ) → Draws → ℕ → String × ℕ
  | s, [], _, k => (s, k)
  | s, (c, v, chance) :: rest, g, k =>
    if containsSub s c then
      if g k < chance then imperfectionLoop (replaceFirst s c v) rest g (k + 1)
      else imperfectionLoop s rest g (k + 1)
    else imperfectionLoop s rest g k

/-- `_add_human_patterns`: filler insertion, contractions, imperfections,
    personal touch — each gated by one draw against a scaled intensity. -/
def addHumanPatterns (sent : String) (intensity : ℚ) (g : Draws) (k : ℕ) : String × ℕ :=
  let step1 : String × ℕ :=
    if g k < qmul intensity (q 1 5) then
      let filler := pyChoice fillers (g (k + 1))
      let words := pySplitWs sent
      if 3 < words.length then
        let pos := pyRandint 1 (words.length - 1) (g (k + 2))
        (joinSp (words.insertIdx pos filler), k + 3)
      else (sent, k + 2)
    else (sent, k + 1)
  let s1 := step1.1
  let k1 := step1.2
  let step2 : String × ℕ :=
    if g k1 < qmul intensity (q 2 5) then
      (contractionPairs.foldl (fun s pr => replaceAll s pr.1 pr.2) s1, k1 + 1)
    else (s1, k1 + 1)
  let s2 := step2.1
  let k2 := step2.2
  let step3 : String × ℕ :=
    if g k2 < qmul intensity (q 1 20) then imperfectionLoop s2 imperfectionsBank g (k2 + 1)
    else (s2, k2 + 1)
  let s3 := step3.1
  let k3 := step3.2
  if g k3 < qmul intensity (q 3 20) then
    (pyChoice personalTouches (g (k3 + 1)) ++ ", " ++ pyLower s3, k3 + 2)
  else (s3, k3 + 1)

/-! ## The per-sentence technique chain -/

/-- The per-sentence technique chain of `_full_humanize` (lines 231-244):
    five membership-guarded applications in source order. -/
def fullTechChain (ext : Ext) (techniques : List String) (intensity : ℚ) (g : Draws)
    (sent : String) (k : ℕ) : Except PyErr (String × ℕ) :=
  let p1 :=
    if "semantic_paraphrasing" ∈ techniques then paraphraseSentence ext sent intensity g k
    else (sent, k)
  let p2 :=
    if "sentence_variation" ∈ techniques then varySentenceStructure p1.1 intensity g p1.2
    else p1
  match (if "perplexity_modulation" ∈ techniques then
           modulatePerplexity ext p2.1 intensity g p2.2
         else .ok p2) with
  | .error e => .error e
  | .ok p3 =>
    let p4 :=
      if "stylistic_injection" ∈ techniques then injectStyle p3.1 intensity g p3.2
      else p3
    let p5 :=
      if "human_patterns" ∈ techniques then addHumanPatterns p4.1 intensity g p4.2
      else p4
    .ok p5

/-- Dispatch one technique by name (identity on unknown names). -/
def applyTechnique (ext : Ext) (intensity : ℚ) (g : Draws) (name : String)
    (p : String × ℕ) : Except PyErr (String × ℕ) :=
  if name = "semantic_paraphrasing" then .ok (paraphraseSentence ext p.1 intensity g p.2)
  else if name = "sentence_variation" then .ok (varySentenceStructure p.1 intensity g p.2)
  else if name = "perplexity_modulation" then modulatePerplexity ext p.1 intensity g p.2
  else if name = "stylistic_injection" then .ok (injectStyle p.1 intensity g p.2)
  else if name = "human_patterns" then .ok (addHumanPatterns p.1 intensity g p.2)
  else .ok p

/-- Run a list of named techniques in sequence. -/
def runChain (ext : Ext) (intensity : ℚ) (g : Draws) :
    List String → String × ℕ → Except PyErr (String × ℕ)
  | [], p => .ok p
  | n :: ns, p =>
    match applyTechnique ext intensity g n p with
    | .error e => .error e
    | .ok p' => runChain ext intensity g ns p'

/-- The semantic gate and full per-sentence processing of `_full_humanize`
    (lines 246-257): run the chain on the original sentence; when
    `preserve_meaning` holds and the embeddings' cosine similarity is below
    `0.7`, revert to the original and re-apply only `_add_human_patterns` at
    `intensity * 0.5`. -/
def processOneFull (ext : Ext) (techniques : List String) (intensity : ℚ)
    (preserve : Bool) (orig : String) (g : Draws) (k : ℕ) : Except PyErr (String × ℕ) :=
  match fullTechChain ext techniques intensity g orig k with
  | .error e => .error e
  | .ok p =>
    if preserve then
      if ext.sim orig p.1 < q 7 10 then
        .ok (addHumanPatterns orig (qmul intensity (q 1 2)) g p.2)
      else .ok p
    else .ok p

/-- The sentence loop of `_full_humanize`:  any per-sentence fault
    propagates (the loop body has no exception handler). -/
def fullProcessSentences (ext : Ext) (techniques : List String) (intensity : ℚ)
    (preserve : Bool) : List String → Draws → ℕ → Except PyErr (List String × ℕ)
  | [], _, k => .ok ([], k)
  | s :: rest, g, k =>
    match processOneFull ext techniques intensity preserve s g k with
    | .error e => .error e
    | .ok p =>
      match fullProcessSentences ext techniques intensity preserve rest g p.2 with
      | .error e => .error e
      | .ok q => .ok (p.1 :: q.1, q.2)

/-! ## Paragraph composition (`_create_paragraph_variation`) -/

/-- The per-iteration paragraph target length:
    `random.randint(2, 5) if intensity > 0.5 else random.randint(3, 6)`. -/
def paraTarget (intensity : ℚ) (r : ℚ) : ℕ :=
  if intensity > q 1 2 then pyRandint 2 5 r else pyRandint 3 6 r

/-- The accumulation loop: returns the flushed paragraphs (as sentence
    groups; the source joins each group with single spaces at flush time,
    which is performed here at the end) and the unflushed remainder.  The
    flush condition is `len(paragraph) >= para_length or i == len(sentences)-1`,
    the second disjunct being `rest = []`. -/
def paraGo (g : Draws) (intensity : ℚ) :
    List String → List String → ℕ → List (List String) × List String
  | para, [], _ => ([], para)
  | para, s :: rest, k =>
    let para' := para ++ [s]
    let target := paraTarget intensity (g k)
    if target ≤ para'.length ∨ rest = [] then
      let q := paraGo g intensity [] rest (k + 1)
      (para' :: q.1, q.2)
    else paraGo g intensity para' rest (k + 1)

/-- `_create_paragraph_variation`: accumulate, flush any remainder, then join
    with `"\n\n"` when more than one paragraph was formed, else with single
    spaces over the full input list. -/
def createParagraphVariation (sentences : List String) (intensity : ℚ) (g : Draws)
    (k : ℕ) : String × ℕ :=
  let q := paraGo g intensity [] sentences k
  let result := q.1 ++ (if q.2.isEmpty then [] else [q.2])
  let out :=
    if 1 < result.length then String.intercalate "\n\n" (result.map joinSp)
    else joinSp sentences
  (out, k + sentences.length)

/-! ## The two pipeline modes and the orchestrator -/

/-- `_full_humanize`: process every sentence, then compose paragraphs. -/
def fullHumanize (ext : Ext) (techniques : List String) (intensity : ℚ)
    (preserve : Bool) (sentences : List String) (g : Draws) (k : ℕ) :
    Except PyErr (String × ℕ) :=
  match fullProcessSentences ext techniques intensity preserve sentences g k with
  | .error e => .error e
  | .ok p => .ok (createParagraphVariation p.1 intensity g p.2)

/-- The loop body of `_fast_humanize` for sentence index `i`: the two
    membership-guarded lightweight techniques, then (for `i > 0`, with
    probability `intensity * 0.3`) a transition phrase prepended to the
    lowercased sentence. -/
def fastProcessOne (techniques : List String) (intensity : ℚ) (g : Draws) (i : ℕ)
    (sent : String) (k : ℕ) : String × ℕ :=
  let p1 :=
    if "sentence_variation" ∈ techniques then varySentenceStructure sent intensity g k
    else (sent, k)
  let p2 :=
    if "human_patterns" ∈ techniques then addHumanPatterns p1.1 intensity g p1.2
    else p1
  if 0 < i then
    if g p2.2 < qmul intensity (q 3 10) then
      (pyChoice transitions (g (p2.2 + 1)) ++ " " ++ pyLower p2.1, p2.2 + 2)
    else (p2.1, p2.2 + 1)
  else p2

/-- The transition step of `_fast_humanize` in isolation. -/
def transitionStep (intensity : ℚ) (g : Draws) (i : ℕ) (sent : String) (k : ℕ) :
    String × ℕ :=
  if 0 < i then
    if g k < qmul intensity (q 3 10) then
      (pyChoice transitions (g (k + 1)) ++ " " ++ pyLower sent, k + 2)
    else (sent, k + 1)
  else (sent, k)

/-- The sentence loop of `_fast_humanize` starting at index `i`. -/
def fastGo (techniques : List String) (intensity : ℚ) (g : Draws) :
    ℕ → List String → ℕ → List String × ℕ
  | _, [], k => ([], k)
  | i, s :: rest, k =>
    let p := fastProcessOne techniques intensity g i s k
    let q := fastGo techniques intensity g (i + 1) rest p.2
    (p.1 :: q.1, q.2)

/-- `_fast_humanize`. -/
def fastHumanize (techniques : List String) (intensity : ℚ)
    (sentences : List String) (g : Draws) (k : ℕ) : String × ℕ :=
  let p := fastGo techniques intensity g 0 sentences k
  createParagraphVariation p.1 intensity g p.2

/-- `HumanizerEngine.humanize`: split into sentences, then dispatch on
    `fast_mode`.  (The lazy `_load_models` call touches only the external
    model handles and is not observable here.) -/
def engineHumanize (ext : Ext) (techniques : List String) (text : String)
    (intensity : ℚ) (preserve fast : Bool) (g : Draws) (k : ℕ) :
    Except PyErr (String × ℕ) :=
  let sentences := splitSentences text
  if fast then .ok (fastHumanize techniques intensity sentences g k)
  else fullHumanize ext techniques intensity preserve sentences g k

/-! ## Service layer (`app/services/humanizer_service.py`) -/

/-- The observable configuration of a `HumanizerEngine` instance: its
    (mutable, shared) `techniques` list and its `model_size`. -/
structure Engine where
  techniques : List String
  modelSize : String
deriving DecidableEq

/-- `HumanizerEngine.__init__`: `techniques or [...]` defaults. -/
def mkEngine (modelSize : String) (techniques : Option (List String)) : Engine :=
  { techniques := techniques.getD defaultTechniques, modelSize := modelSize }

/-- `HumanizerService` state: the three engine slots and the
    `_initialized` flag. -/
structure ServiceState where
  fastH : Option Engine
  standardH : Option Engine
  advancedH : Option Engine
  initialized : Bool
deriving DecidableEq

/-- `HumanizerService.__init__`. -/
def emptyService : ServiceState :=
  { fastH := none, standardH := none, advancedH := none, initialized := false }

/-- `HumanizerService.initialize` (success path; model construction is
    external).  A second call is a no-op via the `_initialized` guard.
    Model sizes come from `settings` (`small` / `medium` / `large`). -/
def initializeService (s : ServiceState) : ServiceState :=
  if s.initialized then s
  else
    { fastH := some (mkEngine "small" (some ["sentence_variation", "human_patterns"])),
      standardH := some (mkEngine "medium"
        (some ["sentence_variation", "human_patterns", "semantic_paraphrasing"])),
      advancedH := some (mkEngine "large"
        (some ["sentence_variation", "perplexity_modulation", "stylistic_injection",
               "semantic_paraphrasing", "human_patterns"])),
      initialized := true }

/-- The two exceptions `get_humanizer` can raise. -/
inductive SvcErr where
  | notInitialized
  | invalidMode
deriving DecidableEq

/-- The three engine slots of the service. -/
inductive Slot where
  | fastS
  | standardS
  | advancedS
deriving DecidableEq

/-- Read an engine slot. -/
def ServiceState.read (s : ServiceState) : Slot → Option Engine
  | .fastS => s.fastH
  | .standardS => s.standardH
  | .advancedS => s.advancedH

/-- Write an engine slot. -/
def ServiceState.write (s : ServiceState) : Slot → Option Engine → ServiceState
  | .fastS, e => { s with fastH := e }
  | .standardS, e => { s with standardH := e }
  | .advancedS, e => { s with advancedH := e }

/-- `HumanizerService.get_humanizer`: `RuntimeError` when not initialized
    (checked first, for every mode string), then mode dispatch with
    `ValueError` on an unknown mode.  The slot stands for the returned
    (aliased, shared) engine object. -/
def getHumanizerSlot (s : ServiceState) (mode : String) : Except SvcErr Slot :=
  if !s.initialized then .error .notInitialized
  else if mode = "fast" then .ok .fastS
  else if mode = "balanced" then .ok .standardS
  else if mode = "quality" then .ok .advancedS
  else .error .invalidMode

/-! ## API layer (`app/api/v1/humanize.py`) -/

/-- `DetectionEvasion.vary_punctuation`: the dash draw is always taken (the
    conditional expression is evaluated before `replace`); the quote draw
    only when a `"` is present. -/
def varyPunctuation (text : String) (g : Draws) (k : ℕ) : String × ℕ :=
  let dash := if g k < q 1 2 then " — " else " – "
  let t1 := replaceAll text " - " dash
  if containsChar t1 '"' then
    if g (k + 1) < q 3 10 then
      (replaceFirst (replaceFirst t1 "\x22" "“") "\x22" "”", k + 2)
    else (t1, k + 2)
  else (t1, k + 1)

/-- `DetectionEvasion.add_unicode_variations` at the default rate `0.001`. -/
def addUnicodeVariations (text : String) (g : Draws) (k : ℕ) : String × ℕ :=
  if g k < q 1 1000 then (replaceFirst text " " (" " ++ "\u200b"), k + 1)
  else (text, k + 1)

/-- The HTTP error classes raised by the endpoints: `HTTPException(400)`
    from the `ValueError` branch and `HTTPException(500)` from the blanket
    `except Exception` branch. -/
inductive ApiErr where
  | badRequest
  | internalError
deriving DecidableEq

/-- `HumanizeRequest` as consumed by the endpoint body. -/
structure HumanizeReq where
  text : String
  intensity : ℚ
  mode : String
  preserveMeaning : Bool
  techniques : Option (List String)
  cache : Bool
deriving DecidableEq

/-- The response fields of `HumanizeResponse` that the handler computes. -/
structure HumanizeResp where
  originalText : String
  humanizedText : String
  mode : String
  techniquesApplied : List String
  similarityScore : Option ℚ
deriving DecidableEq

/-- The endpoint body of `POST /humanize` (`humanize_text`).  `cached` is
    the result of the boundary cache lookup for this request's key (the
    cache store itself is an external collaborator).  Returns the response
    or HTTP error, together with the service state after the call — the
    technique override is written into the shared engine object
    (`humanizer.techniques = request.techniques`) and never restored.
    Python's `if request.techniques:` is falsy for both `None` and `[]`. -/
def humanizeTextHandler (ext : Ext) (svc : ServiceState) (req : HumanizeReq)
    (cached : Option HumanizeResp) (g : Draws) (k : ℕ) :
    Except ApiErr HumanizeResp × ServiceState :=
  match req.cache, cached with
  | true, some c => (.ok c, svc)
  | _, _ =>
    match getHumanizerSlot svc req.mode with
    | .error .notInitialized => (.error .internalError, svc)
    | .error .invalidMode => (.error .badRequest, svc)
    | .ok slot =>
      match svc.read slot with
      | none => (.error .internalError, svc)
      | some eng =>
        let fastMode := req.mode = "fast"
        let eng' :=
          match req.techniques with
          | some ts => if ts ≠ [] then { eng with techniques := ts } else eng
          | none => eng
        let svc' := svc.write slot (some eng')
        match engineHumanize ext eng'.techniques req.text req.intensity
            req.preserveMeaning fastMode g k with
        | .error _ => (.error .internalError, svc')
        | .ok p =>
          let q1 := varyPunctuation p.1 g p.2
          let q2 :=
            if req.intensity > q 4 5 then addUnicodeVariations q1.1 g q1.2 else q1
          let score :=
            if req.preserveMeaning && !fastMode then some (ext.sim req.text q2.1)
            else none
          (.ok { originalText := req.text, humanizedText := q2.1, mode := req.mode,
                 techniquesApplied := eng'.techniques, similarityScore := score },
           svc')

/-- The `asyncio.gather` of `humanize_batch`: the per-text coroutines
    contain no `await`, so they run to completion sequentially in task
    order; without `return_exceptions=True` the first raised exception
    propagates out of `gather`. -/
def batchGather (f : String → ℕ → Except PyErr (String × ℕ)) :
    List String → ℕ → Except PyErr (List String × ℕ)
  | [], k => .ok ([], k)
  | t :: ts, k =>
    match f t k with
    | .error e => .error e
    | .ok p =>
      match batchGather f ts p.2 with
      | .error e => .error e
      | .ok q => .ok (p.1 :: q.1, q.2)

/-- The per-text task of `humanize_batch`: `humanizer.humanize(text,
    intensity=request.intensity, preserve_meaning=True, fast_mode=True)`. -/
def batchTask (ext : Ext) (eng : Engine) (intensity : ℚ) (g : Draws)
    (text : String) (k : ℕ) : Except PyErr (String × ℕ) :=
  engineHumanize ext eng.techniques text intensity true true g k

/-- The endpoint body of `POST /humanize/batch` (`humanize_batch`),
    parameterized by the per-text task `f` run under `gather` (instantiated
    with `batchTask` in production; a fault injected into one task models
    the spec's "forced failure while processing one text").  Every exception
    — including the `ValueError` of an invalid mode — lands in the single
    blanket `except Exception` handler, i.e. HTTP 500. -/
def humanizeBatchHandler (f : Engine → String → ℕ → Except PyErr (String × ℕ))
    (svc : ServiceState) (mode : String) (texts : List String) (k : ℕ) :
    Except ApiErr (List (String × String)) :=
  match getHumanizerSlot svc mode with
  | .error _ => .error .internalError
  | .ok slot =>
    match svc.read slot with
    | none => .error .internalError
    | some eng =>
      match batchGather (f eng) texts k with
      | .error _ => .error .internalError
      | .ok p => .ok (texts.zip p.1)

/-- Modelled from the spec: `app/models/schemas.py` (the pydantic
    `HumanizeRequest`) is not under `src/`.  Spec §3: "Validated before
    entering the pipeline: intensity must be coercible to [0,1]; tier must
    be one of the three enumerated values or the request fails with an
    invalid-parameter error." -/
def validateRequest (text : String) (intensity : ℚ) (mode : String)
    (preserveMeaning : Bool) (techniques : Option (List String)) (cache : Bool) :
    Except ApiErr HumanizeReq :=
  if 0 ≤ intensity ∧ intensity ≤ 1 then
    if mode = "fast" ∨ mode = "balanced" ∨ mode = "quality" then
      .ok { text := text, intensity := intensity, mode := mode,
            preserveMeaning := preserveMeaning, techniques := techniques,
            cache := cache }
    else .error .badRequest
  else .error .badRequest

/-- The validated entry point: request-schema validation (spec-modelled,
    executed by the framework before the endpoint body), then an arbitrary
    pipeline continuation standing for the endpoint body. -/
def validatedEndpoint (pipe : HumanizeReq → Except ApiErr HumanizeResp)
    (text : String) (intensity : ℚ) (mode : String) (preserveMeaning : Bool)
    (techniques : Option (List String)) (cache : Bool) : Except ApiErr HumanizeResp :=
  match validateRequest text intensity mode preserveMeaning techniques cache with
  | .error e => .error e
  | .ok req => pipe req

/-! ## Concrete fixtures for witnesses and counterexamples -/

/-- The all-zero draw stream (a legal `[0,1)` draw sequence). -/
def zeroDraws : Draws := fun _ => 0

/-- The constant `1/2` draw stream. -/
def halfDraws : Draws := fun _ => q 1 2

/-- A draw stream whose fifth draw is `1/4` and all others `1/2`. -/
def quartAt4Draws : Draws := fun n => if n = 4 then q 1 4 else q 1 2

/-- Oracles: failing paraphraser, empty tagger, similarity constantly `1`. -/
def extNull : Ext := ⟨fun _ _ => none, fun _ => [], fun _ _ => 1⟩

/-- Oracles: failing paraphraser, empty tagger, similarity constantly `0`. -/
def extSimZero : Ext := ⟨fun _ _ => none, fun _ => [], fun _ _ => 0⟩

/-- Oracles whose tagger reports, for the sentence `"Good day."`, one token
    with a synonym-bearing text and the out-of-range token index `9` (spaCy
    token indices count punctuation tokens, so they can exceed the
    whitespace-split word count). -/
def extBadIdx : Ext :=
  ⟨fun _ _ => none,
   fun s => if s = "Good day." then [⟨"good", "ADJ", 9⟩] else [],
   fun _ _ => 1⟩

/-- A per-text batch task with a fault injected for the text `"b"`,
    modelling the spec's "forced failure while processing one text". -/
def failTask : Engine → String → ℕ → Except PyErr (String × ℕ) :=
  fun _ t k => if t = "b" then .error .indexError else .ok (t, k)

/-- A per-text batch task that succeeds on every text. -/
def okTask : Engine → String → ℕ → Except PyErr (String × ℕ) :=
  fun _ t k => .ok (t, k)

/-! ## Supporting lemmas -/

/-- Whitespace characters are never sentence-final punctuation. -/
theorem isSentEnd_of_space {c : Char} (hc : pyIsSpace c = true) :
    isSentEnd (some c) = false := by
  simp only [pyIsSpace, Bool.or_eq_true, decide_eq_true_eq] at hc
  rcases hc with ((((h | h) | h) | h) | h) | h <;> subst h <;> rfl

/-- On all-whitespace input the splitter scan never cuts. -/
theorem splitSentencesAux_allws (l : List Char) :
    ∀ acc : List Char, (∀ c ∈ acc, pyIsSpace c = true) → (∀ c ∈ l, pyIsSpace c = true) →
      splitSentencesAux acc l = [acc.reverse ++ l] := by
  induction l with
  | nil => intro acc _ _; simp [splitSentencesAux]
  | cons c cs ih =>
    intro acc hacc hl
    have hc : pyIsSpace c = true := hl c (by simp)
    have hcs : ∀ x ∈ cs, pyIsSpace x = true := fun x hx => hl x (by simp [hx])
    have hcut : (pyIsSpace c && isSentEnd acc.head?) = false := by
      cases acc with
      | nil => simp [isSentEnd]
      | cons a as =>
        have ha : pyIsSpace a = true := hacc a (by simp)
        simp [isSentEnd_of_space ha]
    have hacc' : ∀ x ∈ c :: acc, pyIsSpace x = true := by
      intro x hx
      rcases List.mem_cons.mp hx with h1 | h1
      · subst h1; exact hc
      · exact hacc x h1
    simp only [splitSentencesAux, hcut, Bool.false_eq_true, if_false]
    rw [ih (c :: acc) hacc' hcs]
    simp

/-- Stripping an all-whitespace string yields the empty string. -/
theorem pyStrip_allws (l : List Char) (h : ∀ c ∈ l, pyIsSpace c = true) :
    pyStrip (String.mk l) = "" := by
  have h1 : l.dropWhile pyIsSpace = [] := by
    rw [List.dropWhile_eq_nil_iff]
    intro x hx; exact h x hx
  show String.mk (((l.dropWhile pyIsSpace).reverse.dropWhile pyIsSpace).reverse) = ""
  rw [h1]
  rfl

/-- `_split_sentences` on an empty or all-whitespace text yields no
    sentences. -/
theorem splitSentences_allws (text : String)
    (h : ∀ c ∈ text.toList, pyIsSpace c = true) : splitSentences text = [] := by
  unfold splitSentences
  rw [splitSentencesAux_allws text.toList [] (by intro c hc; cases hc) h]
  simp only [List.reverse_nil, List.nil_append, List.map]
  rw [pyStrip_allws text.toList h]
  rfl

/-- The groups flushed by the paragraph loop, with the unflushed remainder
    appended, recover the input sentence list. -/
theorem paraGo_join (g : Draws) (intensity : ℚ) (rest : List String) :
    ∀ (para : List String) (k : ℕ),
      ((paraGo g intensity para rest k).1.flatten ++ (paraGo g intensity para rest k).2
        = para ++ rest) := by
  induction rest with
  | nil => intro para k; simp [paraGo]
  | cons s rs ih =>
    intro para k
    unfold paraGo
    by_cases hc : paraTarget intensity (g k) ≤ (para ++ [s]).length ∨ rs = []
    · rw [if_pos hc]
      simp only [List.flatten_cons]
      rw [List.append_assoc, ih [] (k + 1)]
      simp
    · rw [if_neg hc]
      rw [ih (para ++ [s]) (k + 1)]
      simp

/-- Whenever sentences remain, the loop ends with an empty remainder: the
    `i == len(sentences) - 1` disjunct flushes the final paragraph. -/
theorem paraGo_leftover (g : Draws) (intensity : ℚ) (rest : List String) :
    ∀ (para : List String) (k : ℕ), rest ≠ [] →
      (paraGo g intensity para rest k).2 = [] := by
  induction rest with
  | nil => intro _ _ h; exact absurd rfl h
  | cons s rs ih =>
    intro para k _
    unfold paraGo
    by_cases hrs : rs = []
    · subst hrs
      rw [if_pos (Or.inr rfl)]
      simp [paraGo]
    · by_cases hc : paraTarget intensity (g k) ≤ (para ++ [s]).length ∨ rs = []
      · rw [if_pos hc]
        exact ih [] (k + 1) hrs
      · rw [if_neg hc]
        exact ih (para ++ [s]) (k + 1) hrs

/-- Every flushed paragraph is non-empty. -/
theorem paraGo_nonempty (g : Draws) (intensity : ℚ) (rest : List String) :
    ∀ (para : List String) (k : ℕ) (p : List String),
      p ∈ (paraGo g intensity para rest k).1 → p ≠ [] := by
  induction rest with
  | nil => intro para k p hp; simp [paraGo] at hp
  | cons s rs ih =>
    intro para k p hp
    unfold paraGo at hp
    by_cases hc : paraTarget intensity (g k) ≤ (para ++ [s]).length ∨ rs = []
    · rw [if_pos hc] at hp
      rcases List.mem_cons.mp hp with h | h
      · subst h; simp
      · exact ih [] (k + 1) p h
    · rw [if_neg hc] at hp
      exact ih (para ++ [s]) (k + 1) p hp

/-! ## Claim theorems -/

/-- C6: for every intensity, preserve-meaning flag and mode, `humanize` on an
    empty or whitespace-only string returns the empty string and does not
    raise: sentence splitting yields the empty sequence and both pipeline
    modes compose it back to the empty string. -/
theorem claim_C6_empty_input (ext : Ext) (techniques : List String) (text : String)
    (intensity : ℚ) (preserve fast : Bool) (g : Draws) (k : ℕ)
    (h : ∀ c ∈ text.toList, pyIsSpace c = true) :
    engineHumanize ext techniques text intensity preserve fast g k = .ok ("", k) := by
  have hs : splitSentences text = [] := splitSentences_allws text h
  have hj : joinSp [] = "" := rfl
  unfold engineHumanize
  rw [hs]
  cases fast <;>
    simp [fastHumanize, fastGo, fullHumanize, fullProcessSentences,
      createParagraphVariation, paraGo, hj]

/-- Witness for C6 at the concrete whitespace-only input `"  "`. -/
theorem claim_C6_empty_input_witness :
    engineHumanize ⟨fun _ _ => none, fun _ => [], fun _ _ => 1⟩ defaultTechniques
      "  " (7/10) true false (fun _ => 1/2) 0 = .ok ("", 0) :=
  claim_C6_empty_input _ defaultTechniques "  " (7/10) true false (fun _ => 1/2) 0
    (by decide)

/-- C8: paragraph composition partitions the processed sentences into
    non-empty paragraphs whose concatenation is exactly the input list (every
    sentence exactly once, in order); the output joins the paragraphs with a
    double line break when there are at least two of them, and otherwise is
    the single-space join of the input list, with no paragraph break
    inserted. -/
theorem claim_C8_composition (sentences : List String) (intensity : ℚ) (g : Draws)
    (k : ℕ) (h : sentences ≠ []) :
    ∃ groups : List (List String),
      groups.flatten = sentences ∧ (∀ p ∈ groups, p ≠ []) ∧
      (createParagraphVariation sentences intensity g k).1 =
        (if 1 < groups.length then String.intercalate "\n\n" (groups.map joinSp)
         else joinSp sentences) := by
  refine ⟨(paraGo g intensity [] sentences k).1, ?_, ?_, ?_⟩
  · have hj := paraGo_join g intensity sentences [] k
    have hl := paraGo_leftover g intensity sentences [] k h
    rw [hl, List.append_nil] at hj
    simpa using hj
  · exact fun p hp => paraGo_nonempty g intensity sentences [] k p hp
  · unfold createParagraphVariation
    have hl := paraGo_leftover g intensity sentences [] k h
    simp [hl]

/-- Witness for C8 at the concrete two-sentence list. -/
theorem claim_C8_composition_witness :
    ∃ groups : List (List String),
      groups.flatten = ["A.", "B."] ∧ (∀ p ∈ groups, p ≠ []) ∧
      (createParagraphVariation ["A.", "B."] 0 (fun _ => 1/2) 0).1 =
        (if 1 < groups.length then String.intercalate "\n\n" (groups.map joinSp)
         else joinSp ["A.", "B."]) :=
  claim_C8_composition ["A.", "B."] 0 (fun _ => 1/2) 0 (by decide)

/-- C10: before `initialize()` completes, `get_humanizer` raises
    `RuntimeError` for every mode string, so no request reaches an engine;
    after a successful `initialize()` it returns an engine slot, with an
    engine present, for each of the three valid modes, and never raises. -/
theorem claim_C10_initialization_guard :
    (∀ (svc : ServiceState) (mode : String), svc.initialized = false →
       getHumanizerSlot svc mode = .error .notInitialized) ∧
    (∀ (svc : ServiceState) (mode : String), svc.initialized = false →
       (mode = "fast" ∨ mode = "balanced" ∨ mode = "quality") →
       ∃ (slot : Slot) (eng : Engine),
         getHumanizerSlot (initializeService svc) mode = .ok slot ∧
         (initializeService svc).read slot = some eng) := by
  constructor
  · intro svc mode h
    simp [getHumanizerSlot, h]
  · intro svc mode h hm
    have hinit : initializeService svc =
        { fastH := some (mkEngine "small" (some ["sentence_variation", "human_patterns"])),
          standardH := some (mkEngine "medium"
            (some ["sentence_variation", "human_patterns", "semantic_paraphrasing"])),
          advancedH := some (mkEngine "large"
            (some ["sentence_variation", "perplexity_modulation",
                   "stylistic_injection", "semantic_paraphrasing", "human_patterns"])),
          initialized := true } := by
      simp [initializeService, h]
    rcases hm with hm | hm | hm <;> subst hm <;>
      exact ⟨_, _, by rw [hinit]; rfl, by rw [hinit]; rfl⟩

/-- Witness for C10: the fresh service rejects `"balanced"` before
    initialization and serves it afterwards. -/
theorem claim_C10_initialization_guard_witness :
    getHumanizerSlot emptyService "balanced" = .error .notInitialized ∧
    ∃ (slot : Slot) (eng : Engine),
      getHumanizerSlot (initializeService emptyService) "balanced" = .ok slot ∧
      (initializeService emptyService).read slot = some eng :=
  ⟨claim_C10_initialization_guard.1 emptyService "balanced" rfl,
   claim_C10_initialization_guard.2 emptyService "balanced" rfl (Or.inr (Or.inl rfl))⟩

/-- C4: in the full pipeline with meaning preservation on, whenever the
    technique chain's mutation of a sentence has embedding cosine similarity
    below `0.7` with the original, the sentence's final form is exactly
    `_add_human_patterns` applied to the original sentence at half the
    configured intensity (the mutation is discarded). -/
theorem claim_C4_semantic_gate (ext : Ext) (techniques : List String)
    (intensity : ℚ) (g : Draws) (orig mutated : String) (k k₁ : ℕ)
    (hchain : fullTechChain ext techniques intensity g orig k = .ok (mutated, k₁))
    (hsim : ext.sim orig mutated < 7/10) :
    processOneFull ext techniques intensity true orig g k =
      .ok (addHumanPatterns orig (intensity * (1/2)) g k₁) := by
  have hsim' : ext.sim orig mutated < q 7 10 := by
    rw [q_eq]
    push_cast
    exact hsim
  have hhalf : qmul intensity (q 1 2) = intensity * (1/2) := by
    rw [qmul_eq, q_eq]
    push_cast
    ring
  unfold processOneFull
  rw [hchain]
  simp [hsim', hhalf]

/-- Witness for C4 with a similarity oracle that always reports `0`. -/
theorem claim_C4_semantic_gate_witness :
    fullTechChain extSimZero [] 1 halfDraws "Hello." 0 = .ok ("Hello.", 0) ∧
    extSimZero.sim "Hello." "Hello." < 7/10 ∧
    processOneFull extSimZero [] 1 true "Hello." halfDraws 0 =
      .ok (addHumanPatterns "Hello." (1 * (1/2)) halfDraws 0) :=
  ⟨rfl, by norm_num [extSimZero],
   claim_C4_semantic_gate extSimZero [] 1 halfDraws "Hello." "Hello." 0 0 rfl
     (by norm_num [extSimZero])⟩

/-- The full technique chain equals the run of the canonical-order technique
    list filtered by membership in the engine's configuration. -/
theorem fullTechChain_eq_runChain (ext : Ext) (techniques : List String)
    (intensity : ℚ) (g : Draws) (sent : String) (k : ℕ) :
    fullTechChain ext techniques intensity g sent k =
      runChain ext intensity g
        (orderedTechniques.filter (fun n => n ∈ techniques)) (sent, k) := by
  by_cases h1 : "semantic_paraphrasing" ∈ techniques <;>
  by_cases h2 : "sentence_variation" ∈ techniques <;>
  by_cases h3 : "perplexity_modulation" ∈ techniques <;>
  by_cases h4 : "stylistic_injection" ∈ techniques <;>
  by_cases h5 : "human_patterns" ∈ techniques <;>
    simp [fullTechChain, orderedTechniques, runChain, applyTechnique,
      h1, h2, h3, h4, h5]

/-- The fast loop body is the run of the enabled subsequence of
    `[sentence_variation, human_patterns]` followed by the transition step. -/
theorem fastProcessOne_eq_runChain (ext : Ext) (techniques : List String)
    (intensity : ℚ) (g : Draws) (i : ℕ) (sent : String) (k : ℕ) :
    Except.ok (fastProcessOne techniques intensity g i sent k) =
      (runChain ext intensity g
          ((["sentence_variation", "human_patterns"].filter
            (fun n => n ∈ techniques))) (sent, k)).bind
        (fun p => .ok (transitionStep intensity g i p.1 p.2)) := by
  by_cases h2 : "sentence_variation" ∈ techniques <;>
  by_cases h5 : "human_patterns" ∈ techniques <;>
    simp [fastProcessOne, transitionStep, runChain, applyTechnique,
      Except.bind, h2, h5]

/-- C7 (amended): the full per-sentence pipeline applies exactly the enabled
    techniques, as the chain over the canonical order
    `[semantic_paraphrasing, sentence_variation, perplexity_modulation,
    stylistic_injection, human_patterns]` filtered by membership; the fast
    loop body applies the enabled subsequence of
    `[sentence_variation, human_patterns]` in that relative order *followed
    by one additional mutation step*: for every sentence after the first,
    with probability `intensity * 0.3`, a transition phrase is prepended and
    the sentence lowercased. -/
theorem claim_C7_order_amended :
    (∀ (ext : Ext) (techniques : List String) (intensity : ℚ) (g : Draws)
       (sent : String) (k : ℕ),
       fullTechChain ext techniques intensity g sent k =
         runChain ext intensity g
           (orderedTechniques.filter (fun n => n ∈ techniques)) (sent, k)) ∧
    (∀ (ext : Ext) (techniques : List String) (intensity : ℚ) (g : Draws)
       (i : ℕ) (sent : String) (k : ℕ),
       Except.ok (fastProcessOne techniques intensity g i sent k) =
         (runChain ext intensity g
             ((["sentence_variation", "human_patterns"].filter
               (fun n => n ∈ techniques))) (sent, k)).bind
           (fun p => .ok (transitionStep intensity g i p.1 p.2))) :=
  ⟨fullTechChain_eq_runChain, fastProcessOne_eq_runChain⟩

theorem qmul_zero (b : ℚ) : qmul 0 b = 0 := by
  rw [qmul_eq]; exact zero_mul b

/-- At intensity `0`, the paraphrase gate `random.random() > intensity`
    fires for every strictly positive draw, so the technique is skipped. -/
theorem paraphraseSentence_zero (ext : Ext) (s : String) (g : Draws) (k : ℕ)
    (h : 0 < g k) : paraphraseSentence ext s 0 g k = (s, k + 1) := by
  unfold paraphraseSentence
  rw [if_pos h]

/-- At intensity `0`, both draws of `_vary_sentence_structure` fail their
    `draw < 0` comparison and the sentence is returned unchanged. -/
theorem varySentenceStructure_zero (s : String) (g : Draws) (k : ℕ)
    (hg : ∀ n, 0 ≤ g n) : (varySentenceStructure s 0 g k).1 = s := by
  have h1 : ∀ j b, ¬ (g j < qmul 0 b) := fun j b => by
    rw [qmul_zero]; exact not_lt.2 (hg j)
  by_cases hl : 15 < (pySplitWs s).length <;>
  by_cases hc : containsChar s ',' = true <;>
    simp [varySentenceStructure, hl, hc, h1]

/-- At intensity `0`, all four draws of `_add_human_patterns` fail their
    `draw < 0` comparison and the sentence is returned unchanged. -/
theorem addHumanPatterns_zero (s : String) (g : Draws) (k : ℕ)
    (hg : ∀ n, 0 ≤ g n) : addHumanPatterns s 0 g k = (s, k + 4) := by
  have h1 : ∀ j b, ¬ (g j < qmul 0 b) := fun j b => by
    rw [qmul_zero]; exact not_lt.2 (hg j)
  simp [addHumanPatterns, h1]

/-- At intensity `0`, the style gate fires for every strictly positive
    draw, so `_inject_style` is skipped. -/
theorem injectStyle_zero (s : String) (g : Draws) (k : ℕ) (h : 0 < g k) :
    injectStyle s 0 g k = (s, k + 1) := by
  unfold injectStyle
  rw [if_pos h]

/-- At intensity `0`, the perplexity token loop substitutes nothing. -/
theorem perplexityLoop_zero (g : Draws) (ts : List Token) :
    ∀ (words : List String) (k : ℕ), (∀ n, 0 ≤ g n) →
      ∃ k', perplexityLoop 0 g ts words k = .ok (words, k') := by
  induction ts with
  | nil => intro words k _; exact ⟨k, rfl⟩
  | cons t rest ih =>
    intro words k hg
    have h1 : ¬ (g k < qmul 0 (q 1 10)) := by
      rw [qmul_zero]; exact not_lt.2 (hg k)
    unfold perplexityLoop
    rw [if_neg h1]
    exact ih words (k + 1) hg

/-- At intensity `0`, `_modulate_perplexity` returns the sentence rebuilt by
    `' '.join(sentence.split())`, which equals the sentence itself whenever
    the sentence's whitespace is already single spaces. -/
theorem modulatePerplexity_zero (ext : Ext) (s : String) (g : Draws) (k : ℕ)
    (hg : ∀ n, 0 ≤ g n) (hnorm : joinSp (pySplitWs s) = s) :
    ∃ k', modulatePerplexity ext s 0 g k = .ok (s, k') := by
  obtain ⟨k', hk⟩ := perplexityLoop_zero g (ext.tagger s) (pySplitWs s) k hg
  refine ⟨k', ?_⟩
  unfold modulatePerplexity
  rw [hk]
  simp [hnorm]

/-- At intensity `0`, every dispatched technique leaves the sentence
    unchanged (given strictly positive draws and single-space
    normalization). -/
theorem applyTechnique_zero (ext : Ext) (g : Draws) (name : String)
    (p : String × ℕ) (hg : ∀ n, 0 < g n) (hnorm : joinSp (pySplitWs p.1) = p.1) :
    ∃ k', applyTechnique ext 0 g name p = .ok (p.1, k') := by
  have hg0 : ∀ n, 0 ≤ g n := fun n => le_of_lt (hg n)
  unfold applyTechnique
  split_ifs with hn1 hn2 hn3 hn4 hn5
  · exact ⟨p.2 + 1, by rw [paraphraseSentence_zero ext p.1 g p.2 (hg p.2)]⟩
  · refine ⟨(varySentenceStructure p.1 0 g p.2).2, ?_⟩
    rw [show varySentenceStructure p.1 0 g p.2 =
      (p.1, (varySentenceStructure p.1 0 g p.2).2) from
        Prod.ext (varySentenceStructure_zero p.1 g p.2 hg0) rfl]
  · exact modulatePerplexity_zero ext p.1 g p.2 hg0 hnorm
  · exact ⟨p.2 + 1, by rw [injectStyle_zero p.1 g p.2 (hg p.2)]⟩
  · exact ⟨p.2 + 4, by rw [addHumanPatterns_zero p.1 g p.2 hg0]⟩
  · exact ⟨p.2, rfl⟩

/-- At intensity `0`, any chain of techniques leaves the sentence
    unchanged. -/
theorem runChain_zero (ext : Ext) (g : Draws) (names : List String) :
    ∀ (p : String × ℕ), (∀ n, 0 < g n) → joinSp (pySplitWs p.1) = p.1 →
      ∃ k', runChain ext 0 g names p = .ok (p.1, k') := by
  induction names with
  | nil => intro p _ _; exact ⟨p.2, rfl⟩
  | cons n rest ih =>
    intro p hg hnorm
    obtain ⟨k1, h1⟩ := applyTechnique_zero ext g n p hg hnorm
    unfold runChain
    rw [h1]
    exact ih (p.1, k1) hg hnorm

/-- At intensity `0`, the whole technique chain is the identity on the
    sentence. -/
theorem fullTechChain_zero (ext : Ext) (techniques : List String) (s : String)
    (g : Draws) (k : ℕ) (hg : ∀ n, 0 < g n) (hnorm : joinSp (pySplitWs s) = s) :
    ∃ k', fullTechChain ext techniques 0 g s k = .ok (s, k') := by
  rw [fullTechChain_eq_runChain]
  exact runChain_zero ext g _ (s, k) hg hnorm

/-- At intensity `0` with the gate off, per-sentence full processing is the
    identity. -/
theorem processOneFull_zero (ext : Ext) (techniques : List String) (s : String)
    (g : Draws) (k : ℕ) (hg : ∀ n, 0 < g n) (hnorm : joinSp (pySplitWs s) = s) :
    ∃ k', processOneFull ext techniques 0 false s g k = .ok (s, k') := by
  obtain ⟨k', hk⟩ := fullTechChain_zero ext techniques s g k hg hnorm
  exact ⟨k', by unfold processOneFull; rw [hk]; rfl⟩

/-- At intensity `0` the transition prepend of `_fast_humanize` never
    fires. -/
theorem transitionStep_zero (g : Draws) (i : ℕ) (s : String) (k : ℕ)
    (hg : ∀ n, 0 ≤ g n) : (transitionStep 0 g i s k).1 = s := by
  have h1 : ∀ j b, ¬ (g j < qmul 0 b) := fun j b => by
    rw [qmul_zero]; exact not_lt.2 (hg j)
  by_cases hi : 0 < i <;> simp [transitionStep, hi, h1]

/-- At intensity `0`, the fast loop body is the identity on the sentence,
    for every `[0,1)` draw stream. -/
theorem fastProcessOne_zero (techniques : List String) (s : String) (g : Draws)
    (i k : ℕ) (hg : ∀ n, 0 ≤ g n) :
    (fastProcessOne techniques 0 g i s k).1 = s := by
  have h1 : ∀ j b, ¬ (g j < qmul 0 b) := fun j b => by
    rw [qmul_zero]; exact not_lt.2 (hg j)
  have hv : ∀ (s' : String) (k' : ℕ), (varySentenceStructure s' 0 g k').1 = s' :=
    fun s' k' => varySentenceStructure_zero s' g k' hg
  have hp : ∀ (s' : String) (k' : ℕ), addHumanPatterns s' 0 g k' = (s', k' + 4) :=
    fun s' k' => addHumanPatterns_zero s' g k' hg
  by_cases h2 : "sentence_variation" ∈ techniques <;>
  by_cases h5 : "human_patterns" ∈ techniques <;>
  by_cases hi : 0 < i <;>
    simp [fastProcessOne, h2, h5, hi, h1, hv, hp]

/-- C5 (amended): at intensity `0`, in fast mode every sentence passes
    through unchanged for every `[0,1)` draw sequence; in the full pipeline
    (gate off) every sentence passes through unchanged provided all draws
    are strictly positive and each sentence is already single-space
    normalized.  (With a draw of exactly `0` — a legal `[0,1)` value — the
    `random.random() > intensity` gates of `_paraphrase_sentence` and
    `_inject_style` fail to skip even at intensity `0`, and
    `_modulate_perplexity` rewrites irregular whitespace unconditionally;
    see the counterexample.) -/
theorem claim_C5_zero_intensity_amended :
    (∀ (techniques : List String) (sentences : List String) (g : Draws)
       (i k : ℕ), (∀ n, 0 ≤ g n ∧ g n < 1) →
       (fastGo techniques 0 g i sentences k).1 = sentences) ∧
    (∀ (ext : Ext) (techniques : List String) (sentences : List String)
       (g : Draws) (k : ℕ), (∀ n, 0 < g n ∧ g n < 1) →
       (∀ s ∈ sentences, joinSp (pySplitWs s) = s) →
       ∃ k', fullProcessSentences ext techniques 0 false sentences g k =
         .ok (sentences, k')) := by
  constructor
  · intro techniques sentences g
    induction sentences with
    | nil => intro i k _; rfl
    | cons s rest ih =>
      intro i k hg
      have hg0 : ∀ n, 0 ≤ g n := fun n => (hg n).1
      unfold fastGo
      simp only [fastProcessOne_zero techniques s g i k hg0]
      rw [ih (i + 1) (fastProcessOne techniques 0 g i s k).2 hg]
  · intro ext techniques sentences g
    induction sentences with
    | nil => intro k _ _; exact ⟨k, rfl⟩
    | cons s rest ih =>
      intro k hg hnorm
      have hgpos : ∀ n, 0 < g n := fun n => (hg n).1
      obtain ⟨k1, hk1⟩ := processOneFull_zero ext techniques s g k hgpos
        (hnorm s (by simp))
      obtain ⟨k2, hk2⟩ := ih k1 hg (fun x hx => hnorm x (by simp [hx]))
      refine ⟨k2, ?_⟩
      unfold fullProcessSentences
      simp [hk1, hk2]

/-- Witness for the amended C5 at a concrete two-sentence input. -/
theorem claim_C5_zero_intensity_amended_witness :
    (fastGo ["sentence_variation", "human_patterns"] 0 halfDraws 0
      ["Hi there.", "Bye now."] 0).1 = ["Hi there.", "Bye now."] ∧
    ∃ k', fullProcessSentences extNull defaultTechniques 0 false
        ["Hi there.", "Bye now."] halfDraws 0 =
      .ok (["Hi there.", "Bye now."], k') :=
  ⟨claim_C5_zero_intensity_amended.1 ["sentence_variation", "human_patterns"]
     ["Hi there.", "Bye now."] halfDraws 0 0
     (fun n => ⟨by norm_num [halfDraws, q_eq], by norm_num [halfDraws, q_eq]⟩),
   claim_C5_zero_intensity_amended.2 extNull defaultTechniques
     ["Hi there.", "Bye now."] halfDraws 0
     (fun n => ⟨by norm_num [halfDraws, q_eq], by norm_num [halfDraws, q_eq]⟩)
     (by decide)⟩

/-- C5 (counterexample to the claim as stated): the all-zero draw stream is
    a legal sequence of `[0,1)` draws, yet at intensity `0` (gate off) the
    full pipeline mutates the single input sentence: the zero draw passes
    the `random.random() > intensity` gate of `_inject_style`, which then
    prepends a rhetorical question and wraps a word in emphasis markers. -/
theorem claim_C5_zero_intensity_counterexample :
    engineHumanize extNull defaultTechniques "Hello there my friend." 0 false
        false zeroDraws 0 =
      .ok ("You *know* what? Hello there my friend.", 11) ∧
    ("You *know* what? Hello there my friend." : String) ≠
      "Hello there my friend." ∧
    splitSentences "Hello there my friend." = ["Hello there my friend."] := by
  refine ⟨?_, ?_, ?_⟩ <;> first | rfl | decide

/-- C7 (counterexample to the claim as stated): in fast mode with both fast
    techniques enabled, the chain of enabled techniques leaves
    `"Nice day today."` unchanged, yet the fast loop body for sentence index
    `1` additionally prepends a transition phrase and lowercases the
    sentence — an extra mutation step beyond the enabled techniques. -/
theorem claim_C7_order_counterexample :
    runChain extNull 1 quartAt4Draws
        (["sentence_variation", "human_patterns"].filter
          (fun n => n ∈ ["sentence_variation", "human_patterns"]))
        ("Nice day today.", 0) = .ok ("Nice day today.", 4) ∧
    fastProcessOne ["sentence_variation", "human_patterns"] 1 quartAt4Draws 1
        "Nice day today." 0 = ("In other words, nice day today.", 6) ∧
    ("In other words, nice day today." : String) ≠ "Nice day today." := by
  refine ⟨?_, ?_, ?_⟩ <;> first | rfl | decide

/-- Processing a sentence list with an `ok` prefix: any fault in the next
    sentence aborts the whole loop (there is no per-sentence exception
    handler in `_full_humanize`). -/
theorem fullProcessSentences_append_error (ext : Ext) (techniques : List String)
    (intensity : ℚ) (preserve : Bool) (g : Draws) (pre : List String) :
    ∀ (k k' : ℕ) (ss : List String) (s : String) (rest : List String) (e : PyErr),
      fullProcessSentences ext techniques intensity preserve pre g k = .ok (ss, k') →
      processOneFull ext techniques intensity preserve s g k' = .error e →
      fullProcessSentences ext techniques intensity preserve (pre ++ s :: rest) g k
        = .error e := by
  induction pre with
  | nil =>
    intro k k' ss s rest e hpre herr
    have hpre' : (Except.ok (([] : List String), k) :
        Except PyErr (List String × ℕ)) = Except.ok (ss, k') := by
      rw [← hpre]; rfl
    simp only [Except.ok.injEq, Prod.mk.injEq] at hpre'
    rw [← hpre'.2] at herr
    show (match processOneFull ext techniques intensity preserve s g k with
      | .error e => .error e
      | .ok p =>
        match fullProcessSentences ext techniques intensity preserve rest g p.2 with
        | .error e => .error e
        | .ok q => .ok (p.1 :: q.1, q.2)) = Except.error e
    rw [herr]
  | cons p ps ih =>
    intro k k' ss s rest e hpre herr
    unfold fullProcessSentences at hpre
    cases hp : processOneFull ext techniques intensity preserve p g k with
    | error e₁ => rw [hp] at hpre; cases hpre
    | ok pr =>
      simp only [hp] at hpre
      cases hps : fullProcessSentences ext techniques intensity preserve ps g pr.2 with
      | error e₂ => rw [hps] at hpre; cases hpre
      | ok qs =>
        simp only [hps, Except.ok.injEq, Prod.mk.injEq] at hpre
        have hk' : qs.2 = k' := hpre.2
        have hstep := ih pr.2 k' qs.1 s rest e (by rw [hps, ← hk']) herr
        rw [List.cons_append]
        unfold fullProcessSentences
        simp only [hp, hstep]

/-- C2 (amended): an unexpected internal fault while transforming one
    sentence is *not* recovered: it propagates out of the sentence loop of
    `_full_humanize`, aborting the whole document — no sentence (neither the
    faulting one nor any other) is delivered.  Only failures inside the
    paraphrase provider call are caught locally (by the `try`/`except` in
    `_paraphrase_sentence`). -/
theorem claim_C2_fault_aborts_document (ext : Ext) (techniques : List String)
    (intensity : ℚ) (preserve : Bool) (g : Draws) (pre : List String)
    (k k' : ℕ) (ss : List String) (s : String) (rest : List String) (e : PyErr)
    (hpre : fullProcessSentences ext techniques intensity preserve pre g k
      = .ok (ss, k'))
    (herr : processOneFull ext techniques intensity preserve s g k' = .error e) :
    fullHumanize ext techniques intensity preserve (pre ++ s :: rest) g k
      = .error e := by
  unfold fullHumanize
  rw [fullProcessSentences_append_error ext techniques intensity preserve g pre
    k k' ss s rest e hpre herr]

/-- Witness for the amended C2: the faulting two-sentence document. -/
theorem claim_C2_fault_aborts_document_witness :
    fullProcessSentences extBadIdx ["perplexity_modulation"] 1 false [] zeroDraws 0
      = .ok ([], 0) ∧
    processOneFull extBadIdx ["perplexity_modulation"] 1 false "Good day."
      zeroDraws 0 = .error .indexError ∧
    fullHumanize extBadIdx ["perplexity_modulation"] 1 false
      ["Good day.", "Nice work."] zeroDraws 0 = .error .indexError :=
  ⟨rfl, by decide,
   claim_C2_fault_aborts_document extBadIdx ["perplexity_modulation"] 1 false
     zeroDraws [] 0 0 [] "Good day." ["Nice work."] .indexError rfl (by decide)⟩

/-- C2 (counterexample to the claim as stated): a tagger token whose index
    exceeds the whitespace-split word count makes the assignment
    `words[token.i] = ...` in `_modulate_perplexity` raise `IndexError`;
    `humanize` then raises instead of degrading the sentence, and the second
    sentence of the document is never processed (no output at all). -/
theorem claim_C2_counterexample :
    engineHumanize extBadIdx ["perplexity_modulation"] "Good day. Nice work." 1
        false false zeroDraws 0 = .error .indexError ∧
    splitSentences "Good day. Nice work." = ["Good day.", "Nice work."] :=
  ⟨rfl, rfl⟩

/-- Reading back a freshly written engine slot. -/
theorem ServiceState.read_write (s : ServiceState) (slot : Slot)
    (e : Option Engine) : (s.write slot e).read slot = e := by
  cases slot <;> rfl

/-- C1 (amended): a non-empty technique-override list is written into the
    shared engine object selected for the request's mode
    (`humanizer.techniques = request.techniques`) and is never restored:
    after the call returns, that engine's techniques list *is* the override,
    so a subsequent call without an override uses the overridden list, not
    the tier's default. -/
theorem claim_C1_override_persists (ext : Ext) (svc : ServiceState)
    (req : HumanizeReq) (cached : Option HumanizeResp) (g : Draws) (k : ℕ)
    (ts : List String) (slot : Slot) (eng : Engine)
    (hcache : req.cache = false) (htech : req.techniques = some ts)
    (hts : ts ≠ []) (hslot : getHumanizerSlot svc req.mode = .ok slot)
    (heng : svc.read slot = some eng) :
    ((humanizeTextHandler ext svc req cached g k).2).read slot =
      some { eng with techniques := ts } := by
  unfold humanizeTextHandler
  rw [hcache]
  simp only [hslot, heng, htech]
  simp [hts]
  split
  · exact ServiceState.read_write svc slot _
  · exact ServiceState.read_write svc slot _

/-- Witness for the amended C1: the fast engine's techniques list after a
    call with override `["human_patterns"]` is the override itself. -/
theorem claim_C1_override_persists_witness :
    ((humanizeTextHandler extNull (initializeService emptyService)
        ⟨"Hi.", q 1 2, "fast", true, some ["human_patterns"], false⟩
        none halfDraws 0).2).read .fastS =
      some ⟨["human_patterns"], "small"⟩ :=
  claim_C1_override_persists extNull (initializeService emptyService)
    ⟨"Hi.", q 1 2, "fast", true, some ["human_patterns"], false⟩
    none halfDraws 0 ["human_patterns"] .fastS
    ⟨["sentence_variation", "human_patterns"], "small"⟩
    rfl rfl (by decide) rfl rfl

/-- C1 (counterexample to the claim as stated): after one `humanize` call
    with a technique override, the shared fast-tier engine's techniques list
    has changed from the tier default to the override — the override is not
    request-scoped. -/
theorem claim_C1_override_counterexample :
    (initializeService emptyService).fastH =
      some ⟨["sentence_variation", "human_patterns"], "small"⟩ ∧
    ((humanizeTextHandler extNull (initializeService emptyService)
        ⟨"Hi.", q 1 2, "fast", true, some ["human_patterns"], false⟩
        none halfDraws 0).2).fastH =
      some ⟨["human_patterns"], "small"⟩ ∧
    (["human_patterns"] : List String) ≠ ["sentence_variation", "human_patterns"] := by
  refine ⟨rfl, ?_, by decide⟩
  rfl

/-- The gather loop preserves one-to-one correspondence: on success there is
    exactly one humanized text per input text. -/
theorem batchGather_length (f : String → ℕ → Except PyErr (String × ℕ))
    (texts : List String) :
    ∀ (k k' : ℕ) (hs : List String),
      batchGather f texts k = .ok (hs, k') → hs.length = texts.length := by
  induction texts with
  | nil =>
    intro k k' hs h
    have h' : (Except.ok (([] : List String), k) :
        Except PyErr (List String × ℕ)) = Except.ok (hs, k') := by rw [← h]; rfl
    simp only [Except.ok.injEq, Prod.mk.injEq] at h'
    rw [← h'.1]
  | cons t ts ih =>
    intro k k' hs h
    unfold batchGather at h
    cases hf : f t k with
    | error e => rw [hf] at h; cases h
    | ok p =>
      simp only [hf] at h
      cases hrest : batchGather f ts p.2 with
      | error e => rw [hrest] at h; cases h
      | ok qp =>
        simp only [hrest, Except.ok.injEq, Prod.mk.injEq] at h
        rw [← h.1]
        simp [ih p.2 qp.2 qp.1 (by rw [hrest])]

/-- C3 (amended): when every per-text task succeeds, the batch endpoint
    returns `(original, humanized)` pairs in input order, one per input
    (`texts.zip` of results, with `map fst` recovering the inputs); but when
    any one task fails, `asyncio.gather` propagates the exception and the
    whole batch request fails with HTTP 500 — the other texts do not return
    their results. -/
theorem claim_C3_batch_amended (f : Engine → String → ℕ → Except PyErr (String × ℕ))
    (svc : ServiceState) (mode : String) (slot : Slot) (eng : Engine)
    (texts : List String) (k : ℕ)
    (hslot : getHumanizerSlot svc mode = .ok slot)
    (heng : svc.read slot = some eng) :
    (∀ (hs : List String) (k' : ℕ), batchGather (f eng) texts k = .ok (hs, k') →
       humanizeBatchHandler f svc mode texts k = .ok (texts.zip hs) ∧
       hs.length = texts.length ∧ (texts.zip hs).map Prod.fst = texts) ∧
    (∀ e : PyErr, batchGather (f eng) texts k = .error e →
       humanizeBatchHandler f svc mode texts k = .error .internalError) := by
  constructor
  · intro hs k' hg
    have hlen : hs.length = texts.length := batchGather_length (f eng) texts k k' hs hg
    refine ⟨?_, hlen, ?_⟩
    · unfold humanizeBatchHandler
      simp only [hslot, heng, hg]
    · exact List.map_fst_zip texts hs (le_of_eq hlen.symm)
  · intro e hg
    unfold humanizeBatchHandler
    simp only [hslot, heng, hg]

/-- Witness for the amended C3 with the always-succeeding task. -/
theorem claim_C3_batch_amended_witness :
    humanizeBatchHandler okTask (initializeService emptyService) "fast"
        ["x", "y"] 0 = .ok [("x", "x"), ("y", "y")] ∧
    (["x", "y"].zip ["x", "y"]).map Prod.fst = ["x", "y"] :=
  ⟨((claim_C3_batch_amended okTask (initializeService emptyService) "fast" .fastS
      (mkEngine "small" (some ["sentence_variation", "human_patterns"]))
      ["x", "y"] 0 rfl rfl).1 ["x", "y"] 0 rfl).1,
   ((claim_C3_batch_amended okTask (initializeService emptyService) "fast" .fastS
      (mkEngine "small" (some ["sentence_variation", "human_patterns"]))
      ["x", "y"] 0 rfl rfl).1 ["x", "y"] 0 rfl).2.2⟩

/-- C3 (counterexample to the claim as stated): a forced failure on the
    middle text makes the whole batch return HTTP 500; the first and last
    texts — whose tasks succeed in isolation — do not return results. -/
theorem claim_C3_batch_counterexample :
    humanizeBatchHandler failTask (initializeService emptyService) "fast"
        ["a", "b", "c"] 0 = .error .internalError ∧
    failTask (mkEngine "small" (some ["sentence_variation", "human_patterns"]))
      "a" 0 = .ok ("a", 0) ∧
    failTask (mkEngine "small" (some ["sentence_variation", "human_patterns"]))
      "c" 0 = .ok ("c", 0) :=
  ⟨rfl, rfl, rfl⟩

/-- C9: request validation precedes the pipeline.  First conjunct: for every
    pipeline continuation, the validated endpoint returns an
    invalid-parameter error — without invoking the continuation — exactly
    when the intensity is outside `[0,1]` or the mode is not one of the
    three tiers, and otherwise passes the validated request through.
    Second conjunct: on an initialized service, a valid mode also passes the
    in-handler `get_humanizer` dispatch (no `ValueError`). -/
theorem claim_C9_validation_before_pipeline :
    (∀ (pipe : HumanizeReq → Except ApiErr HumanizeResp) (text : String)
       (intensity : ℚ) (mode : String) (pm : Bool)
       (tech : Option (List String)) (cache : Bool),
       validatedEndpoint pipe text intensity mode pm tech cache =
         (if 0 ≤ intensity ∧ intensity ≤ 1 then
            if mode = "fast" ∨ mode = "balanced" ∨ mode = "quality" then
              pipe ⟨text, intensity, mode, pm, tech, cache⟩
            else .error .badRequest
          else .error .badRequest)) ∧
    (∀ (svc : ServiceState) (mode : String), svc.initialized = true →
       (mode = "fast" ∨ mode = "balanced" ∨ mode = "quality") →
       ∃ slot, getHumanizerSlot svc mode = .ok slot) := by
  constructor
  · intro pipe text intensity mode pm tech cache
    unfold validatedEndpoint validateRequest
    by_cases h1 : 0 ≤ intensity ∧ intensity ≤ 1 <;>
    by_cases h2 : mode = "fast" ∨ mode = "balanced" ∨ mode = "quality" <;>
      simp [h1, h2]
  · intro svc mode hinit hm
    rcases hm with h | h | h <;> subst h
    · exact ⟨.fastS, by simp [getHumanizerSlot, hinit]⟩
    · exact ⟨.standardS, by simp [getHumanizerSlot, hinit]⟩
    · exact ⟨.advancedS, by simp [getHumanizerSlot, hinit]⟩

/-- Witness for C9: an out-of-range intensity is rejected for every
    pipeline; a valid request reaches the pipeline; a valid mode resolves. -/
theorem claim_C9_validation_before_pipeline_witness :
    validatedEndpoint (fun r => .ok ⟨r.text, r.text, r.mode, [], none⟩)
        "Hi." (q 3 2) "fast" true none false = .error .badRequest ∧
    validatedEndpoint (fun r => .ok ⟨r.text, r.text, r.mode, [], none⟩)
        "Hi." (q 1 2) "quality" true none false =
      .ok ⟨"Hi.", "Hi.", "quality", [], none⟩ ∧
    ∃ slot, getHumanizerSlot (initializeService emptyService) "balanced" =
      .ok slot := by
  refine ⟨?_, ?_, ?_⟩
  · rw [claim_C9_validation_before_pipeline.1]
    norm_num [q_eq]
  · rw [claim_C9_validation_before_pipeline.1]
    norm_num [q_eq]
  · exact claim_C9_validation_before_pipeline.2 (initializeService emptyService)
      "balanced" rfl (Or.inr (Or.inl rfl))

end Humanizer
